import Mathlib

/-!
# Session store over an embedded key-value engine (`nodb.go`)

A shallow embedding of `src/nodb.go`: the option defaults (`preOptions`), the
value codec (`registerGobConcreteType`, `serialize`, `deserialize`) and the
session operations (`Set`, `Get`, `Exist`, `SetMaxAge`, `SetIdMaxAge`, ...).

The program leans on three libraries, which are modelled at the level the
program uses them:

* `reflect`: dynamic types, kinds, `Elem`, `Interface`, and the pointer that
  `InterfaceData` and `NewAt` pass around, with the layout of interface values
  of the gc runtime (a pointer-shaped value sits in the data word itself, any
  other value behind it);
* `encoding/gob`: the process-wide registry of `Register`/`RegisterName`, the
  types gob has an encoder for, and what a decoder rebuilds from the stream of
  an encoder (name lookup, pointer flattening, fields that are not sent,
  omitted zero values, allocation at the registered type).  The byte format is
  not modelled: a byte string is represented by what gob's decoder reads from
  it (`Blob`);
* the key-value engine (`nodb.DB`): an arbitrary deterministic engine given by
  its operations (`Engine`), whose failing calls leave its state untouched.

The values are those of the predeclared types, structs without embedded or
interface fields, arrays, slices, maps, channels, functions and pointers; the
nil slice and the nil map are the empty ones, a struct type is written out
with its fields, so it is not recursive, and defined types other than structs
are left out.

A Go call ends in one of three ways (`Outcome`): it returns without an error,
it returns an error, or it panics.
-/

namespace Nodbstore

/-! ## Go values and their dynamic types -/

/-- The kinds of `reflect.Kind`. -/
inductive Kind
  | Invalid | Bool | Int | Int8 | Int16 | Int32 | Int64
  | Uint | Uint8 | Uint16 | Uint32 | Uint64 | Uintptr
  | Float32 | Float64 | Complex64 | Complex128
  | Array | Chan | Func | Interface | Map | Ptr | Slice | String | Struct
  | UnsafePointer
  deriving DecidableEq, Repr

/-- The predeclared integer types. -/
inductive IntType
  | int | int8 | int16 | int32 | int64
  | uint | uint8 | uint16 | uint32 | uint64 | uintptr
  deriving DecidableEq, Repr

/-- The predeclared floating-point types. -/
inductive FloatType
  | float32 | float64
  deriving DecidableEq, Repr

/-- The predeclared complex types. -/
inductive ComplexType
  | complex64 | complex128
  deriving DecidableEq, Repr

mutual
/-- The dynamic types a value held in an `interface{}` can have.  A struct type
is a defined type with its package path, its name and its fields. -/
inductive GoType
  | bool
  | string
  | integer (t : IntType)
  | float (t : FloatType)
  | complex (t : ComplexType)
  | array (len : Nat) (elem : GoType)
  | chan (elem : GoType)
  | func (signature : String)
  | map (key elem : GoType)
  | ptr (elem : GoType)
  | slice (elem : GoType)
  | struct (pkgPath name : String) (fields : FieldTypes)
  | unsafePointer
  deriving DecidableEq
/-- The fields of a struct type, in the order of declaration. -/
inductive FieldTypes
  | nil
  | cons (name : String) (type : GoType) (rest : FieldTypes)
  deriving DecidableEq
end

/-- Go values, each carrying what determines its dynamic type.  A channel or
function with the number 0 is the nil one, `cast t storage` is what a pointer
made by `reflect.NewAt` at type `t` points to when the address is that of a
value of another type: the storage of that value read at type `t`. -/
inductive GoValue
  | bool (b : Bool)
  | string (s : String)
  | integer (t : IntType) (n : Int)
  | float (t : FloatType) (bits : Nat)
  | complex (t : ComplexType) (re im : Nat)
  | array (elem : GoType) (elems : List GoValue)
  | chan (elem : GoType) (id : Nat)
  | func (signature : String) (id : Nat)
  | map (key elem : GoType) (entries : List (GoValue × GoValue))
  | ptr (target : GoValue)
  | nilPtr (elem : GoType)
  | slice (elem : GoType) (elems : List GoValue)
  | struct (pkgPath name : String) (fields : List (String × GoValue))
  | unsafePointer (addr : Nat)
  | cast (t : GoType) (storage : GoValue)

/-- A value of type `interface{}`: `none` is the nil interface. -/
abbrev Iface := Option GoValue

/-- The method `Kind` of `reflect.Type`. -/
def GoType.kind : GoType → Kind
  | .bool => .Bool
  | .string => .String
  | .integer .int => .Int
  | .integer .int8 => .Int8
  | .integer .int16 => .Int16
  | .integer .int32 => .Int32
  | .integer .int64 => .Int64
  | .integer .uint => .Uint
  | .integer .uint8 => .Uint8
  | .integer .uint16 => .Uint16
  | .integer .uint32 => .Uint32
  | .integer .uint64 => .Uint64
  | .integer .uintptr => .Uintptr
  | .float .float32 => .Float32
  | .float .float64 => .Float64
  | .complex .complex64 => .Complex64
  | .complex .complex128 => .Complex128
  | .array _ _ => .Array
  | .chan _ => .Chan
  | .func _ => .Func
  | .map _ _ => .Map
  | .ptr _ => .Ptr
  | .slice _ => .Slice
  | .struct _ _ _ => .Struct
  | .unsafePointer => .UnsafePointer

mutual
/-- The dynamic type of a value (`reflect.TypeOf` on a non-nil interface). -/
def GoValue.typeOf : GoValue → GoType
  | .bool _ => .bool
  | .string _ => .string
  | .integer t _ => .integer t
  | .float t _ => .float t
  | .complex t _ _ => .complex t
  | .array e es => .array es.length e
  | .chan e _ => .chan e
  | .func s _ => .func s
  | .map k e _ => .map k e
  | .ptr t => .ptr t.typeOf
  | .nilPtr e => .ptr e
  | .slice e _ => .slice e
  | .struct p n fs => .struct p n (fieldTypesOf fs)
  | .unsafePointer _ => .unsafePointer
  | .cast t _ => t
/-- The field types of the fields of a struct value. -/
def fieldTypesOf : List (String × GoValue) → FieldTypes
  | [] => .nil
  | (k, v) :: rest => .cons k v.typeOf (fieldTypesOf rest)
end

/-- The method `String` of `reflect.Type`.  Package paths are taken to be single
identifiers (as `main`), so the package name printed here is the path. -/
def GoType.str : GoType → String
  | .bool => "bool"
  | .string => "string"
  | .integer .int => "int"
  | .integer .int8 => "int8"
  | .integer .int16 => "int16"
  | .integer .int32 => "int32"
  | .integer .int64 => "int64"
  | .integer .uint => "uint"
  | .integer .uint8 => "uint8"
  | .integer .uint16 => "uint16"
  | .integer .uint32 => "uint32"
  | .integer .uint64 => "uint64"
  | .integer .uintptr => "uintptr"
  | .float .float32 => "float32"
  | .float .float64 => "float64"
  | .complex .complex64 => "complex64"
  | .complex .complex128 => "complex128"
  | .array n e => "[" ++ toString n ++ "]" ++ e.str
  | .chan e => "chan " ++ e.str
  | .func s => s
  | .map k e => "map[" ++ k.str ++ "]" ++ e.str
  | .ptr e => "*" ++ e.str
  | .slice e => "[]" ++ e.str
  | .struct p n _ => p ++ "." ++ n
  | .unsafePointer => "unsafe.Pointer"

/-- The method `Name` of `reflect.Type`: the name of a defined or predeclared type,
empty for the other types. -/
def GoType.name : GoType → String
  | .array _ _ => ""
  | .chan _ => ""
  | .func _ => ""
  | .map _ _ => ""
  | .ptr _ => ""
  | .slice _ => ""
  | .struct _ n _ => n
  | .unsafePointer => "Pointer"
  | t => t.str

/-- The method `PkgPath` of `reflect.Type`: empty for predeclared and for unnamed
types. -/
def GoType.pkgPath : GoType → String
  | .struct p _ _ => p
  | .unsafePointer => "unsafe"
  | _ => ""

mutual
/-- The zero value of a type (`reflect.Zero`). -/
def GoType.zero : GoType → GoValue
  | .bool => .bool false
  | .string => .string ""
  | .integer t => .integer t 0
  | .float t => .float t 0
  | .complex t => .complex t 0 0
  | .array n e => .array e (List.replicate n e.zero)
  | .chan e => .chan e 0
  | .func s => .func s 0
  | .map k e => .map k e []
  | .ptr e => .nilPtr e
  | .slice e => .slice e []
  | .struct p n fs => .struct p n (zeroFields fs)
  | .unsafePointer => .unsafePointer 0
/-- The zero values of the fields of a struct type. -/
def zeroFields : FieldTypes → List (String × GoValue)
  | .nil => []
  | .cons k t rest => (k, t.zero) :: zeroFields rest
end

/-- The function `reflect.TypeOf`: the nil interface has no type. -/
def TypeOf (value : Iface) : Option GoType :=
  value.map GoValue.typeOf

/-- The kind of `reflect.ValueOf(p)`: `Invalid` for the nil interface. -/
def ValueKind (p : Iface) : Kind :=
  match p with
  | none => .Invalid
  | some v => v.typeOf.kind

/-- The method `reflect.Value.Elem` on a pointer: the pointee, or the zero
`Value` (`none`) for a nil pointer. -/
def GoValue.Elem : GoValue → Option GoValue
  | .ptr t => some t
  | _ => none

/-! ## The data word of an interface value -/

/-- An `unsafe.Pointer`: nil, or the address of the storage of a value. -/
inductive Address
  | null
  | of (storage : GoValue)

mutual
/-- The pointer a pointer-shaped value consists of, and `none` for a value that
is not pointer-shaped.  Pointers, maps, channels, functions and unsafe pointers
are pointer-shaped, and so is a struct with a single field or an array with a
single element that is.  A map, channel or function is the address of the
object the runtime keeps for it. -/
def GoValue.directWord : GoValue → Option Address
  | .ptr x => some (.of x)
  | .nilPtr _ => some .null
  | .map k e entries => if entries.isEmpty then some .null else some (.of (.map k e entries))
  | .chan e id => if id = 0 then some .null else some (.of (.chan e id))
  | .func s id => if id = 0 then some .null else some (.of (.func s id))
  | .unsafePointer addr => if addr = 0 then some .null else some (.of (.unsafePointer addr))
  | .struct _ _ fs => directWordOfFields fs
  | .array _ es => directWordOfElems es
  | _ => none
/-- The pointer of a single pointer-shaped field. -/
def directWordOfFields : List (String × GoValue) → Option Address
  | [] => none
  | (_, v) :: rest => if rest.isEmpty then v.directWord else none
/-- The pointer of a single pointer-shaped element. -/
def directWordOfElems : List GoValue → Option Address
  | [] => none
  | v :: rest => if rest.isEmpty then v.directWord else none
end

/-- The second word of `reflect.Value.InterfaceData` for an interface holding
`v`: the pointer itself when `v` is pointer-shaped, and the address of the copy
of `v` that the interface points to otherwise. -/
def InterfaceData (v : GoValue) : Address :=
  match v.directWord with
  | some word => word
  | none => .of v

/-- The value `reflect.NewAt(t, p).Interface()`: a pointer of type `*t` holding
the address `p`.  Its pointee is the value stored there when that has type `t`,
and the storage read at type `t` otherwise. -/
def NewAt (t : GoType) (p : Address) : GoValue :=
  match p with
  | .null => .nilPtr t
  | .of storage => if storage.typeOf = t then .ptr storage else .ptr (.cast t storage)

/-! ## Outcomes of a call -/

/-- The error values the program handles. -/
inductive GoError
  | errorf (msg : String)
  | gob (msg : String)
  | ErrNotFound
  | engine (msg : String)
  deriving DecidableEq, Repr

/-- How a Go call ends: a return without an error, a return with an error, or
a panic. -/
inductive Outcome (α : Type)
  | ok (a : α)
  | error (e : GoError)
  | panics (msg : String)

/-- The method `reflect.Value.Interface`: it panics on the zero `Value`. -/
def Interface (v : Option GoValue) : Outcome Iface :=
  match v with
  | none => .panics "reflect: call of reflect.Value.Interface on zero Value"
  | some x => .ok (some x)

/-! ## The gob registry -/

/-- The first value bound to a key in an association list. -/
def assoc {α β : Type} [DecidableEq α] (k : α) : List (α × β) → Option β
  | [] => none
  | (a, b) :: rest => if a = k then some b else assoc k rest

/-- Assignment `m[k] = v` to a map in which `k` is unbound or already bound to
`v`: a bound key keeps its entry. -/
def put {α β : Type} [DecidableEq α] (k : α) (v : β) (l : List (α × β)) : List (α × β) :=
  match assoc k l with
  | some _ => l
  | none => (k, v) :: l

/-- The process-wide tables of `encoding/gob`. -/
structure Registry where
  nameToConcreteType : List (String × GoType)
  concreteTypeToName : List (GoType × String)

/-- The base type of gob's `userType`: the type with all pointers removed. -/
def GoType.base : GoType → GoType
  | .ptr e => e.base
  | t => t

/-- The number of pointer indirections of gob's `userType`. -/
def GoType.indir : GoType → Nat
  | .ptr e => e.indir + 1
  | _ => 0

/-- The function `gob.RegisterName`: it panics when the name is bound to another
type or the base type to another name, and records both bindings otherwise. -/
def RegisterName (reg : Registry) (name : String) (user : GoType) : Outcome Registry :=
  if name = "" then .panics "attempt to register empty name"
  else if (assoc name reg.nameToConcreteType).any (fun t => decide (t ≠ user)) then
    .panics ("gob: registering duplicate types for " ++ name)
  else if (assoc user.base reg.concreteTypeToName).any (fun n => decide (n ≠ name)) then
    .panics ("gob: registering duplicate names for " ++ user.str)
  else
    .ok ⟨put name user reg.nameToConcreteType, put user.base name reg.concreteTypeToName⟩

/-- The name `gob.Register` gives a type: the printed type, or the qualified
name for a named type.  As in gob, the pointer case keeps `rt` at the pointer
type, so a pointer type is named by its printed form. -/
def registerNameOf (rt : GoType) : String :=
  let name := rt.str
  let star := if rt.name = "" ∧ rt.kind = .Ptr then "*" else ""
  if rt.name ≠ "" then
    if rt.pkgPath = "" then star ++ rt.name
    else star ++ rt.pkgPath ++ "." ++ rt.name
  else name

/-- The function `gob.Register`.  Its documentation: "Expecting to be used only
during initialization, it panics if the mapping between types and names is not
a bijection." -/
def Register (reg : Registry) (value : Iface) : Outcome Registry :=
  match value with
  | none => .panics "runtime error: invalid memory address or nil pointer dereference"
  | some v => RegisterName reg (registerNameOf v.typeOf) v.typeOf

/-- The values gob's `registerBasics` registers when the package is loaded. -/
def basicValues : List GoValue :=
  [.integer .int 0, .integer .int8 0, .integer .int16 0, .integer .int32 0,
   .integer .int64 0, .integer .uint 0, .integer .uint8 0, .integer .uint16 0,
   .integer .uint32 0, .integer .uint64 0, .float .float32 0, .float .float64 0,
   .complex .complex64 0 0, .complex .complex128 0 0, .integer .uintptr 0,
   .bool false, .string "",
   .slice (.integer .uint8) [], .slice (.integer .int) [], .slice (.integer .int8) [],
   .slice (.integer .int16) [], .slice (.integer .int32) [], .slice (.integer .int64) [],
   .slice (.integer .uint) [], .slice (.integer .uint16) [], .slice (.integer .uint32) [],
   .slice (.integer .uint64) [], .slice (.float .float32) [], .slice (.float .float64) [],
   .slice (.complex .complex64) [], .slice (.complex .complex128) [],
   .slice (.integer .uintptr) [], .slice .bool [], .slice .string []]

/-- Registration of a list of values, one after the other. -/
def registerAll (reg : Registry) : List GoValue → Registry
  | [] => reg
  | v :: vs =>
    match Register reg (some v) with
    | .ok reg1 => registerAll reg1 vs
    | _ => registerAll reg vs

/-- The registry of a process that has only loaded gob. -/
def gobInit : Registry :=
  registerAll ⟨[], []⟩ basicValues

/-! ## The interface layer of gob's encoder and decoder -/

/-- A byte string, represented by what gob's decoder reads from it: the string
of length 0, a stream holding one interface value (the registered name of its
type, and the base value as a decoder rebuilds it at the type of the sender), a
stream holding the nil interface, or bytes that are no gob stream. -/
inductive Blob
  | empty
  | message (name : String) (payload : GoValue)
  | nilMessage
  | malformed (first : Nat) (rest : List Nat)

/-- The test `len(val) == 0`. -/
def Blob.isEmpty : Blob → Bool
  | .empty => true
  | _ => false

/-- Whether a value is a nil pointer. -/
def GoValue.isNilPtr : GoValue → Bool
  | .nilPtr _ => true
  | _ => false

/-- The function `reflect.Indirect` applied through all pointers: the base
value, or the zero `Value` (`none`) when a nil pointer is met. -/
def GoValue.indirect : GoValue → Option GoValue
  | .ptr t => t.indirect
  | .nilPtr _ => none
  | v => some v

/-- The function `isExported` of gob: the name starts with an upper-case
letter. -/
def isExported (name : String) : Bool :=
  match name.data with
  | c :: _ => c.isUpper
  | [] => false

/-- The function `isSent` of gob: a field is sent when it is exported and is no
channel or function, nor a pointer to one. -/
def isSent (name : String) (type : GoType) : Bool :=
  isExported name && decide (type.base.kind ≠ .Chan) && decide (type.base.kind ≠ .Func)

/-- Whether a struct type has a field that is sent. -/
def FieldTypes.anySent : FieldTypes → Bool
  | .nil => false
  | .cons k t rest => isSent k t || rest.anySent

mutual
/-- The types gob builds an encoder for: no channel, function or unsafe pointer,
alone or as an element or a sent field, and no struct that has fields but none
that is sent. -/
def gobSupported : GoType → Bool
  | .chan _ => false
  | .func _ => false
  | .unsafePointer => false
  | .array _ e => gobSupported e
  | .map k e => gobSupported k && gobSupported e
  | .ptr e => gobSupported e
  | .slice e => gobSupported e
  | .struct _ _ fs => gobSupportedFields fs && (decide (fs = .nil) || fs.anySent)
  | _ => true
/-- Every sent field has a type gob builds an encoder for. -/
def gobSupportedFields : FieldTypes → Bool
  | .nil => true
  | .cons k t rest => (!isSent k t || gobSupported t) && gobSupportedFields rest
end

/-- Whether gob omits a value of a predeclared type as a struct field: the
zero values, the negative zeros of the floats included. -/
def GoValue.isOmittedZero : GoValue → Bool
  | .bool b => !b
  | .string s => decide (s = "")
  | .integer _ n => decide (n = 0)
  | .float .float32 bits => decide (bits = 0 ∨ bits = 2 ^ 31)
  | .float .float64 bits => decide (bits = 0 ∨ bits = 2 ^ 63)
  | .complex .complex64 re im => decide ((re = 0 ∨ re = 2 ^ 31) ∧ (im = 0 ∨ im = 2 ^ 31))
  | .complex .complex128 re im => decide ((re = 0 ∨ re = 2 ^ 63) ∧ (im = 0 ∨ im = 2 ^ 63))
  | _ => false

/-- What becomes of a struct field in a stream. -/
inductive Sent
  | refused
  | omitted
  | rebuilt (v : GoValue)

mutual
/-- What a decoder rebuilds from the stream of a value that is sent with its
zero values (the value at the top, an element of an array, slice or map):
pointers are followed and allocated again, a nil pointer is refused, and the
fields of a struct are rebuilt field by field.  `none` is a refusal. -/
def gobRebuild : GoValue → Option GoValue
  | .ptr x =>
    match gobRebuild x with
    | some y => some (.ptr y)
    | none => none
  | .nilPtr _ => none
  | .cast _ _ => none
  | .array e es =>
    match gobRebuildElems es with
    | some rs => some (.array e rs)
    | none => none
  | .slice e es =>
    match gobRebuildElems es with
    | some rs => some (.slice e rs)
    | none => none
  | .map k e entries =>
    match gobRebuildEntries entries with
    | some rs => some (.map k e rs)
    | none => none
  | .struct p n fs =>
    match gobRebuildFields fs with
    | some rs => some (.struct p n rs)
    | none => none
  | v => some v
/-- The elements of an array or slice, rebuilt one by one. -/
def gobRebuildElems : List GoValue → Option (List GoValue)
  | [] => some []
  | v :: rest =>
    match gobRebuild v, gobRebuildElems rest with
    | some r, some rs => some (r :: rs)
    | _, _ => none
/-- The keys and elements of a map, rebuilt one by one. -/
def gobRebuildEntries : List (GoValue × GoValue) → Option (List (GoValue × GoValue))
  | [] => some []
  | (k, v) :: rest =>
    match gobRebuild k, gobRebuild v, gobRebuildEntries rest with
    | some rk, some rv, some rs => some ((rk, rv) :: rs)
    | _, _, _ => none
/-- The fields of a struct, rebuilt one by one: a field that is not sent, and a
field that is omitted from the stream, come back as the zero value of the type
of the field. -/
def gobRebuildFields : List (String × GoValue) → Option (List (String × GoValue))
  | [] => some []
  | (k, v) :: rest =>
    if isSent k v.typeOf then
      match gobSendField v, gobRebuildFields rest with
      | .rebuilt r, some rs => some ((k, r) :: rs)
      | .omitted, some rs => some ((k, v.typeOf.zero) :: rs)
      | _, _ => none
    else
      match gobRebuildFields rest with
      | some rs => some ((k, v.typeOf.zero) :: rs)
      | none => none
/-- A struct field in the stream: pointers are followed, and the field is
omitted when a nil pointer is met or when the base value is a zero of a
predeclared type, an empty slice or a nil map; arrays and structs are always
sent. -/
def gobSendField : GoValue → Sent
  | .ptr x =>
    match gobSendField x with
    | .rebuilt y => .rebuilt (.ptr y)
    | .omitted => .omitted
    | .refused => .refused
  | .nilPtr _ => .omitted
  | .cast _ _ => .refused
  | .array e es =>
    match gobRebuildElems es with
    | some rs => .rebuilt (.array e rs)
    | none => .refused
  | .slice e es =>
    if es.isEmpty then .omitted
    else
      match gobRebuildElems es with
      | some rs => .rebuilt (.slice e rs)
      | none => .refused
  | .map k e entries =>
    if entries.isEmpty then .omitted
    else
      match gobRebuildEntries entries with
      | some rs => .rebuilt (.map k e rs)
      | none => .refused
  | .struct p n fs =>
    match gobRebuildFields fs with
    | some rs => .rebuilt (.struct p n rs)
    | none => .refused
  | v => if v.isOmittedZero then .omitted else .rebuilt v
end

/-- The call `encoder.Encode(&value)` for a non-nil interface value holding `v`:
gob refuses a nil pointer, looks up the name registered for the base type,
builds the encoder of the base type, and sends the name with the base value
reached through the pointers. -/
def gobEncode (reg : Registry) (v : GoValue) : Outcome Blob :=
  if v.isNilPtr then
    .error (.gob ("gob: cannot encode nil pointer of type " ++ v.typeOf.str ++ " inside interface"))
  else
    match assoc v.typeOf.base reg.concreteTypeToName with
    | none => .error (.gob ("gob: type not registered for interface: " ++ v.typeOf.base.str))
    | some name =>
      if gobSupported v.typeOf.base then
        match v.indirect with
        | none => .panics "reflect: call of reflect.Value.Type on zero Value"
        | some base =>
          match gobRebuild base with
          | some payload => .ok (.message name payload)
          | none => .error (.gob "gob: encodeArray: nil element")
      else .error (.gob ("gob: type not supported: " ++ v.typeOf.base.str))

/-- Allocation of `n` pointers above a base value. -/
def GoValue.wrap : Nat → GoValue → GoValue
  | 0, v => v
  | n + 1, v => .ptr (GoValue.wrap n v)

/-- The call `decoder.Decode(&p)`: the type registered under the transmitted
name is allocated and filled from the stream, so that fields that are not sent
and values that are omitted are the zero values of their types. -/
def gobDecode (reg : Registry) : Blob → Except GoError Iface
  | .empty => .error (.gob "EOF")
  | .malformed _ _ => .error (.gob "gob: bad data")
  | .nilMessage => .ok none
  | .message name payload =>
    match assoc name reg.nameToConcreteType with
    | none => .error (.gob ("gob: name not registered for interface: " ++ name))
    | some typ =>
      if payload.typeOf = typ.base then
        match gobRebuild payload with
        | some filled => .ok (some (GoValue.wrap typ.indir filled))
        | none => .error (.gob "gob: bad data")
      else .error (.gob ("gob: wrong type received for " ++ name))

/-! ## The value codec of `nodb.go` -/

/-- The method `registerGobConcreteType`. -/
def registerGobConcreteType (reg : Registry) (value : Iface) : Outcome Registry :=
  match TypeOf value, value with
  | some t, some v =>
    match t.kind with
    | .Ptr =>
      match Interface v.Elem with
      | .ok i => Register reg i
      | .error e => .error e
      | .panics msg => .panics msg
    | .Struct | .Map | .Slice => Register reg value
    | .String | .Int | .Int8 | .Int16 | .Int32 | .Int64
    | .Uint | .Uint8 | .Uint16 | .Uint32 | .Uint64
    | .Bool | .Float32 | .Float64 | .Complex64 | .Complex128 => .ok reg
    | _ => .error (.errorf ("unhandled type: " ++ t.str))
  | _, _ => .panics "runtime error: invalid memory address or nil pointer dereference"

/-- The method `serialize`, with the registry it leaves behind. -/
def serialize (reg : Registry) (value : Iface) : Outcome Blob × Registry :=
  match registerGobConcreteType reg value with
  | .error e => (.error e, reg)
  | .panics msg => (.panics msg, reg)
  | .ok reg1 =>
    match TypeOf value, value with
    | some t, some v =>
      if t.kind = .Struct then
        (.error (.errorf "serialize func only take pointer of a struct"), reg1)
      else (gobEncode reg1 v, reg1)
    | _, _ => (.panics "runtime error: invalid memory address or nil pointer dereference", reg1)

/-- The method `deserialize`: for a decoded struct the result is the pointer
that `reflect.NewAt` makes, at the type of the struct, of the data word of the
interface holding it; any other decoded value is handed back as it is. -/
def deserialize (reg : Registry) (byt : Blob) : Except GoError Iface :=
  match gobDecode reg byt with
  | .error err => .error err
  | .ok p =>
    match p with
    | some v =>
      if ValueKind p = .Struct then .ok (some (NewAt v.typeOf (InterfaceData v)))
      else .ok p
    | none => .ok p

/-! ## Options -/

/-- A `time.Duration`: a count of nanoseconds. -/
abbrev Duration := Int

/-- The constant `time.Second`. -/
def Second : Duration := 1000000000

/-- The struct `Options`. -/
structure Options where
  Path : String
  DbIndex : Int
  MaxAge : Duration
  deriving DecidableEq, Repr

/-- The function `preOptions`; `DefaultMaxAge` is `session.DefaultMaxAge`, the
default session lifetime of the framework. -/
def preOptions (DefaultMaxAge : Duration) (opts : List Options) : Options :=
  let opt : Options :=
    match opts with
    | [] => ⟨"", 0, 0⟩
    | o :: _ => o
  let opt := if opt.Path = "" then { opt with Path := "./nodbstore" } else opt
  let opt := if opt.MaxAge = 0 then { opt with MaxAge := DefaultMaxAge } else opt
  opt

/-! ## The key-value engine -/

/-- The operations of `nodb.DB` that the store calls, over the states `σ` of
the engine.  Reads do not change the engine; a call that changes it either
fails, leaving the state as it was, or yields the next state.  The argument of
`Expire` is a time to live in seconds. -/
structure Engine (σ : Type) where
  HSet : σ → String → String → Blob → Except GoError σ
  HGet : σ → String → String → Except GoError Blob
  HDel : σ → String → String → Except GoError σ
  HLen : σ → String → Int × Option GoError
  Del : σ → String → Except GoError σ
  Expire : σ → String → Int → Except GoError σ

/-- A call to the engine that can change it, as issued by the store. -/
inductive EngineCall
  | HSet (id key : String) (bs : Blob)
  | Expire (id : String) (duration : Int)
  | HDel (id key : String)
  | Del (id : String)

/-- A line written through `Logger.Errorf`: the format and the error. -/
structure LogLine where
  format : String
  err : GoError
  deriving DecidableEq, Repr

/-- The struct `NodbStore`: the options, the lines logged so far and the state
of the engine behind `db`. -/
structure NodbStore (σ : Type) extends Options where
  Logger : List LogLine
  db : σ

/-- What a call on the store reads and changes: the store, gob's process-wide
registry, and the record of the state-changing engine calls issued so far. -/
structure Process (σ : Type) where
  s : NodbStore σ
  registry : Registry
  issued : List EngineCall

variable {σ : Type}

/-- The call `s.db.HSet(id, key, bs)`. -/
def Process.HSet (E : Engine σ) (w : Process σ) (id key : String) (bs : Blob) :
    Option GoError × Process σ :=
  match E.HSet w.s.db id key bs with
  | .ok db1 => (none, { w with s := { w.s with db := db1 }, issued := w.issued ++ [.HSet id key bs] })
  | .error err => (some err, { w with issued := w.issued ++ [.HSet id key bs] })

/-- The call `s.db.Expire(id, duration)`. -/
def Process.Expire (E : Engine σ) (w : Process σ) (id : String) (duration : Int) :
    Option GoError × Process σ :=
  match E.Expire w.s.db id duration with
  | .ok db1 => (none, { w with s := { w.s with db := db1 }, issued := w.issued ++ [.Expire id duration] })
  | .error err => (some err, { w with issued := w.issued ++ [.Expire id duration] })

/-- The call `s.db.HDel(id, key)`. -/
def Process.HDel (E : Engine σ) (w : Process σ) (id key : String) :
    Option GoError × Process σ :=
  match E.HDel w.s.db id key with
  | .ok db1 => (none, { w with s := { w.s with db := db1 }, issued := w.issued ++ [.HDel id key] })
  | .error err => (some err, { w with issued := w.issued ++ [.HDel id key] })

/-- The call `s.db.Del(id)`. -/
def Process.Del (E : Engine σ) (w : Process σ) (id : String) :
    Option GoError × Process σ :=
  match E.Del w.s.db id with
  | .ok db1 => (none, { w with s := { w.s with db := db1 }, issued := w.issued ++ [.Del id] })
  | .error err => (some err, { w with issued := w.issued ++ [.Del id] })

/-- The call `s.Logger.Errorf(format, err)`. -/
def Process.Errorf (w : Process σ) (format : String) (err : GoError) : Process σ :=
  { w with s := { w.s with Logger := w.s.Logger ++ [⟨format, err⟩] } }

/-! ## The session store -/

/-- The method `Set`: `ok` is the nil error. -/
def Set (E : Engine σ) (w : Process σ) (id key : String) (val : Iface) :
    Outcome Unit × Process σ :=
  match serialize w.registry val with
  | (.error err, reg) => (.error err, { w with registry := reg })
  | (.panics msg, reg) => (.panics msg, { w with registry := reg })
  | (.ok bs, reg) =>
    match Process.HSet E { w with registry := reg } id key bs with
    | (some err, w1) => (.error err, w1)
    | (none, w1) =>
      match Process.Expire E w1 id w1.s.MaxAge with
      | (some err, w2) => (.error err, w2)
      | (none, w2) => (.ok (), w2)

/-- The method `Get`: `none` is the nil interface. -/
def Get (E : Engine σ) (w : Process σ) (id key : String) : Iface × Process σ :=
  match E.HGet w.s.db id key with
  | .error err =>
    if err = .ErrNotFound then (none, w)
    else (none, w.Errorf "nodb HGET failed: %s" err)
  | .ok val =>
    let w1 := (Process.Expire E w id w.s.MaxAge).2
    if val.isEmpty then (none, w1)
    else
      match deserialize w1.registry val with
      | .error err => (none, w1.Errorf "nodb HGET failed: %v - %v" err)
      | .ok value => (value, w1)

/-- The method `Del`. -/
def Del (E : Engine σ) (w : Process σ) (id key : String) : Bool × Process σ :=
  match Process.HDel E w id key with
  | (err, w1) => (err.isNone, w1)

/-- The method `Clear`. -/
def Clear (E : Engine σ) (w : Process σ) (id : String) : Bool × Process σ :=
  match Process.Del E w id with
  | (err, w1) => (err.isNone, w1)

/-- The method `Add`. -/
def Add (w : Process σ) (_id : String) : Bool × Process σ :=
  (true, w)

/-- The method `Exist`. -/
def Exist (E : Engine σ) (w : Process σ) (id : String) : Bool :=
  decide ((E.HLen w.s.db id).1 > 0)

/-- The method `SetMaxAge`. -/
def SetMaxAge (w : Process σ) (maxAge : Duration) : Process σ :=
  { w with s := { w.s with MaxAge := maxAge } }

/-- The method `SetIdMaxAge`. -/
def SetIdMaxAge (E : Engine σ) (w : Process σ) (id : String) (_maxAge : Duration) : Process σ :=
  if Exist E w id then (Process.Expire E w id w.s.MaxAge).2 else w

/-- The method `Run`. -/
def Run (w : Process σ) : Option GoError × Process σ :=
  (none, w)

/-! ## An engine in memory -/

/-- The state of the engine in memory: the fields of each hash and the time to
live, in seconds, last set for each key. -/
structure MemDB where
  fields : List ((String × String) × Blob)
  ttl : List (String × Int)

/-- An engine in memory.  It refuses an empty key or field and a time to live
that is not positive, and reports a missing field as not found. -/
def memEngine : Engine MemDB where
  HSet db id key bs :=
    if id = "" ∨ key = "" then .error (.engine "invalid key size")
    else .ok { db with fields := ((id, key), bs) :: db.fields.filter (fun e => decide (e.1 ≠ (id, key))) }
  HGet db id key :=
    match assoc (id, key) db.fields with
    | some bs => .ok bs
    | none => .error .ErrNotFound
  HDel db id key :=
    .ok { db with fields := db.fields.filter (fun e => decide (e.1 ≠ (id, key))) }
  HLen db id := (((db.fields.filter (fun e => decide (e.1.1 = id))).length : Int), none)
  Del db id :=
    .ok { fields := db.fields.filter (fun e => decide (e.1.1 ≠ id)),
          ttl := db.ttl.filter (fun e => decide (e.1 ≠ id)) }
  Expire db id duration :=
    if duration ≤ 0 then .error (.engine "invalid expire value")
    else .ok { db with ttl := (id, duration) :: db.ttl.filter (fun e => decide (e.1 ≠ id)) }

/-- A process with an empty engine in memory, an empty log and gob's initial
registry. -/
def memProcess (opt : Options) : Process MemDB :=
  { s := { toOptions := opt, Logger := [], db := ⟨[], []⟩ }, registry := gobInit, issued := [] }

/-! ## Registries a process can reach -/

/-- The registries reached from gob's initial one by calls of `gob.Register`
that return. -/
inductive Reachable : Registry → Prop
  | init : Reachable gobInit
  | register (reg reg1 : Registry) (value : Iface) :
      Reachable reg → Register reg value = .ok reg1 → Reachable reg1

/-- The predeclared boolean, string and numeric types. -/
def GoType.isPredeclared : GoType → Bool
  | .bool => true
  | .string => true
  | .integer _ => true
  | .float _ => true
  | .complex _ => true
  | _ => false

/-- Every predeclared type is registered under its own name. -/
def BasicsBound (reg : Registry) : Prop :=
  ∀ t : GoType, t.isPredeclared = true →
    assoc t reg.concreteTypeToName = some t.str ∧ assoc t.str reg.nameToConcreteType = some t

/-- The types whose values `deserialize` hands back at their own type: the
predeclared types, maps, slices and pointers to a struct. -/
def GoType.keepsType : GoType → Bool
  | .ptr (.struct _ _ _) => true
  | .map _ _ => true
  | .slice _ => true
  | t => t.isPredeclared

/-- The kinds for which `registerGobConcreteType` registers nothing: string,
boolean, and the integers, floats and complex numbers of each width. -/
def primitiveKinds : List Kind :=
  [.String, .Int, .Int8, .Int16, .Int32, .Int64, .Uint, .Uint8, .Uint16, .Uint32, .Uint64,
   .Bool, .Float32, .Float64, .Complex64, .Complex128]

/-- The kinds `registerGobConcreteType` has a case for: pointer, struct, map,
slice and the primitive kinds. -/
def handledKinds : List Kind :=
  [.Ptr, .Struct, .Map, .Slice] ++ primitiveKinds

/-! ## Values used in examples -/

/-- The struct value `Counter{N: 3}` of package `main`. -/
def counter : GoValue :=
  .struct "main" "Counter" [("N", .integer .int 3)]

/-- The struct value `W{P: &five}` of package `main`, with `five := 5` and
`type W struct{ P *int }`. -/
def boxedInt : GoValue :=
  .struct "main" "W" [("P", .ptr (.integer .int 5))]

/-- The struct value `U{N: 3, hidden: 7, Z: new(int)}` of package `main`, with
`type U struct{ N int; hidden int; Z *int }`. -/
def partlySent : GoValue :=
  .struct "main" "U"
    [("N", .integer .int 3), ("hidden", .integer .int 7), ("Z", .ptr (.integer .int 0))]

/-- The registry after `serialize` has been handed a pointer to a pointer to
`counter`. -/
def registryAfterPtrPtr : Registry :=
  (serialize gobInit (some (.ptr (.ptr counter)))).2


/-! ## Lemmas on the registry -/

theorem assoc_put_bound {α β : Type} [DecidableEq α] (k k1 : α) (v v1 : β)
    (l : List (α × β)) (h : assoc k l = some v) : assoc k (put k1 v1 l) = some v := by
  unfold put
  cases h1 : assoc k1 l with
  | some x => simpa using h
  | none =>
    have hne : k1 ≠ k := by
      intro e
      rw [e, h] at h1
      cases h1
    simp [assoc, hne, h]

theorem assoc_put_self {α β : Type} [DecidableEq α] [DecidableEq β] (k : α) (v : β)
    (l : List (α × β))
    (h : (assoc k l).any (fun x => decide (x ≠ v)) = false) : assoc k (put k v l) = some v := by
  unfold put
  cases h1 : assoc k l with
  | some x =>
    rw [h1] at h
    simp at h
    simp [h1, h]
  | none => simp [assoc]

/-- What a returning `RegisterName` leaves in the registry: the two new
bindings, and every binding that was there. -/
theorem RegisterName_ok (reg reg1 : Registry) (name : String) (user : GoType)
    (h : RegisterName reg name user = .ok reg1) :
    assoc name reg1.nameToConcreteType = some user ∧
    assoc user.base reg1.concreteTypeToName = some name ∧
    (∀ k v, assoc k reg.nameToConcreteType = some v → assoc k reg1.nameToConcreteType = some v) ∧
    (∀ k v, assoc k reg.concreteTypeToName = some v → assoc k reg1.concreteTypeToName = some v) := by
  unfold RegisterName at h
  split at h
  · cases h
  · split at h
    · cases h
    · split at h
      · cases h
      · rename_i h1 h2 h3
        injection h with h
        subst h
        refine ⟨assoc_put_self _ _ _ (by simpa using h2), assoc_put_self _ _ _ (by simpa using h3), ?_, ?_⟩
        · intro k v hk
          exact assoc_put_bound _ _ _ _ _ hk
        · intro k v hk
          exact assoc_put_bound _ _ _ _ _ hk

theorem basicsBound_gobInit : BasicsBound gobInit := by
  intro t ht
  cases t <;> simp [GoType.isPredeclared] at ht
  · exact ⟨rfl, rfl⟩
  · exact ⟨rfl, rfl⟩
  · rename_i t; cases t <;> exact ⟨rfl, rfl⟩
  · rename_i t; cases t <;> exact ⟨rfl, rfl⟩
  · rename_i t; cases t <;> exact ⟨rfl, rfl⟩

theorem basicsBound_Register (reg reg1 : Registry) (value : Iface)
    (hb : BasicsBound reg) (h : Register reg value = .ok reg1) : BasicsBound reg1 := by
  cases value with
  | none => simp [Register] at h
  | some v =>
    have hr := RegisterName_ok reg reg1 _ _ h
    intro t ht
    exact ⟨hr.2.2.2 _ _ (hb t ht).1, hr.2.2.1 _ _ (hb t ht).2⟩

theorem basicsBound_of_reachable (reg : Registry) (h : Reachable reg) : BasicsBound reg := by
  induction h with
  | init => exact basicsBound_gobInit
  | register reg reg1 value _ hreg ih => exact basicsBound_Register reg reg1 value ih hreg


/-! ## Lemmas on the codec -/

/-- A value that is no pointer and that gob carries whole is sent as it is and
decoded to itself, once its type is registered under a name bound to that
type. -/
theorem encode_decode_plain (reg : Registry) (v : GoValue) (name : String) (bs : Blob)
    (hk : v.typeOf.kind ≠ .Ptr) (hind : v.indirect = some v)
    (hwhole : gobRebuild v = some v)
    (hc : assoc v.typeOf reg.concreteTypeToName = some name)
    (hn : assoc name reg.nameToConcreteType = some v.typeOf)
    (henc : gobEncode reg v = .ok bs) :
    gobDecode reg bs = .ok (some v) := by
  have hbase : v.typeOf.base = v.typeOf := by
    cases h : v.typeOf <;> simp_all [GoType.base, GoType.kind]
  have hindir : v.typeOf.indir = 0 := by
    cases h : v.typeOf <;> simp_all [GoType.indir, GoType.kind]
  unfold gobEncode at henc
  split at henc
  · cases henc
  · rw [hbase, hc, hind] at henc
    simp only [hwhole] at henc
    split at henc
    · injection henc with henc
      subst henc
      simp [gobDecode, hn, hbase, hindir, GoValue.wrap, hwhole]
    · cases henc

/-- The steps behind a `serialize` that returns bytes. -/
theorem serialize_ok (reg reg1 : Registry) (v : GoValue) (bs : Blob)
    (h : serialize reg (some v) = (.ok bs, reg1)) :
    registerGobConcreteType reg (some v) = .ok reg1 ∧ v.typeOf.kind ≠ .Struct ∧
      gobEncode reg1 v = .ok bs := by
  unfold serialize at h
  split at h
  · simp at h
  · simp at h
  · rename_i r hr
    simp only [TypeOf, Option.map] at h
    split at h
    · simp at h
    · rename_i hk
      simp only [Prod.mk.injEq] at h
      obtain ⟨h1, h2⟩ := h
      subst h2
      exact ⟨hr, hk, h1⟩

/-- The result of `deserialize` when gob decodes a value that is no struct. -/
theorem deserialize_plain (reg : Registry) (bs : Blob) (v : GoValue)
    (hk : v.typeOf.kind ≠ .Struct) (h : gobDecode reg bs = .ok (some v)) :
    deserialize reg bs = .ok (some v) := by
  simp [deserialize, h, ValueKind, hk]

theorem roundtrip_plain (reg reg1 : Registry) (v : GoValue) (bs : Blob) (name : String)
    (hp : v.typeOf.kind ≠ .Ptr) (hind : v.indirect = some v)
    (hwhole : gobRebuild v = some v)
    (hc : assoc v.typeOf reg1.concreteTypeToName = some name)
    (hn : assoc name reg1.nameToConcreteType = some v.typeOf)
    (hser : serialize reg (some v) = (.ok bs, reg1)) :
    deserialize reg1 bs = .ok (some v) := by
  obtain ⟨_, hk, henc⟩ := serialize_ok reg reg1 v bs hser
  exact deserialize_plain reg1 bs v hk
    (encode_decode_plain reg1 v name bs hp hind hwhole hc hn henc)

theorem kind_ne_ptr_of_predeclared (t : GoType) (h : t.isPredeclared = true) :
    t.kind ≠ .Ptr := by
  cases t with
  | bool => simp [GoType.kind]
  | string => simp [GoType.kind]
  | integer t => cases t <;> simp [GoType.kind]
  | float t => cases t <;> simp [GoType.kind]
  | complex t => cases t <;> simp [GoType.kind]
  | _ => simp [GoType.isPredeclared] at h

theorem kind_primitive_of_predeclared_ok (reg reg1 : Registry) (v : GoValue)
    (hpre : v.typeOf.isPredeclared = true)
    (h : registerGobConcreteType reg (some v) = .ok reg1) : reg1 = reg := by
  simp only [registerGobConcreteType, TypeOf, Option.map] at h
  cases ht : v.typeOf with
  | bool => simpa [ht, GoType.kind] using h.symm
  | string => simpa [ht, GoType.kind] using h.symm
  | integer t => cases t <;> simp [ht, GoType.kind] at h <;> exact h.symm
  | float t => cases t <;> simp [ht, GoType.kind] at h <;> exact h.symm
  | complex t => cases t <;> simp [ht, GoType.kind] at h <;> exact h.symm
  | _ => simp [ht, GoType.isPredeclared] at hpre

theorem roundtrip_predeclared (reg reg1 : Registry) (v : GoValue) (bs : Blob)
    (hb : BasicsBound reg) (hpre : v.typeOf.isPredeclared = true)
    (hind : v.indirect = some v) (hwhole : gobRebuild v = some v)
    (hser : serialize reg (some v) = (.ok bs, reg1)) :
    deserialize reg1 bs = .ok (some v) := by
  obtain ⟨hreg, _, _⟩ := serialize_ok reg reg1 v bs hser
  have := kind_primitive_of_predeclared_ok reg reg1 v hpre hreg
  subst this
  exact roundtrip_plain _ _ _ _ _ (kind_ne_ptr_of_predeclared _ hpre) hind hwhole
    (hb _ hpre).1 (hb _ hpre).2 hser

theorem base_of_kind_ne_ptr (t : GoType) (h : t.kind ≠ .Ptr) : t.base = t := by
  cases t <;> simp_all [GoType.base, GoType.kind]

/-- A value whose own type the inspection registers, and which gob carries
whole, comes back from the codec as it went in. -/
theorem roundtrip_registered (reg reg1 : Registry) (v : GoValue) (bs : Blob)
    (hp : v.typeOf.kind ≠ .Ptr) (hind : v.indirect = some v)
    (hwhole : gobRebuild v = some v)
    (hreg : registerGobConcreteType reg (some v) = Register reg (some v))
    (hser : serialize reg (some v) = (.ok bs, reg1)) :
    deserialize reg1 bs = .ok (some v) := by
  obtain ⟨hr, _, _⟩ := serialize_ok reg reg1 v bs hser
  rw [hreg] at hr
  have hn := RegisterName_ok reg reg1 _ _ hr
  have hb := base_of_kind_ne_ptr _ hp
  rw [hb] at hn
  exact roundtrip_plain reg reg1 v bs _ hp hind hwhole hn.2.1 hn.1 hser

/-- A pointer to a struct that gob carries whole and that is not pointer-shaped
comes back from the codec as a pointer to an equal struct. -/
theorem roundtrip_ptr_struct (reg reg1 : Registry) (p n : String)
    (fields : List (String × GoValue)) (bs : Blob)
    (hwhole : gobRebuild (.struct p n fields) = some (.struct p n fields))
    (hword : (GoValue.struct p n fields).directWord = none)
    (hser : serialize reg (some (.ptr (.struct p n fields))) = (.ok bs, reg1)) :
    deserialize reg1 bs = .ok (some (.ptr (.struct p n fields))) := by
  obtain ⟨hr, _, henc⟩ := serialize_ok reg reg1 _ bs hser
  have hr1 : Register reg (some (.struct p n fields)) = .ok reg1 := by
    simpa [registerGobConcreteType, TypeOf, GoValue.typeOf, GoType.kind, Interface,
      GoValue.Elem] using hr
  have hn := RegisterName_ok reg reg1 _ _ hr1
  simp only [GoValue.typeOf, GoType.base] at hn
  simp only [gobEncode, GoValue.isNilPtr, GoValue.typeOf, GoType.base, hn.2.1,
    GoValue.indirect, hwhole] at henc
  simp at henc
  split at henc
  · injection henc with henc
    subst henc
    simp [deserialize, gobDecode, hn.1, GoValue.typeOf, GoType.base, GoType.indir,
      GoValue.wrap, ValueKind, GoType.kind, InterfaceData, hword, NewAt, hwhole]
  · cases henc

/-! ## The value codec: round trip -/

/-- C1, counterexample: a pointer to an `int` is accepted by `serialize`, and
`deserialize` hands back the `int` itself, whose dynamic type is not the
pointer type that went in. -/
theorem roundtrip_pointer_to_int_loses_pointer :
    serialize gobInit (some (.ptr (.integer .int 5)))
      = (.ok (.message "int" (.integer .int 5)), gobInit) ∧
    deserialize gobInit (.message "int" (.integer .int 5)) = .ok (some (.integer .int 5)) ∧
    TypeOf (some (GoValue.integer .int 5)) ≠ TypeOf (some (GoValue.ptr (.integer .int 5))) := by
  refine ⟨rfl, rfl, ?_⟩
  simp [TypeOf, GoValue.typeOf]

/-- C1, amended: in a registry reached from gob's initial one, every value of a
predeclared type, map, slice or pointer to a struct that `serialize` accepts,
whose base value gob carries whole (the decoder rebuilds it as it was) and, for
a pointer to a struct, whose struct is not pointer-shaped, is handed back by
`deserialize` unchanged: same dynamic type, equal contents. -/
theorem serialize_deserialize_roundtrip (reg reg1 : Registry) (v base : GoValue) (bs : Blob)
    (hreach : Reachable reg) (hkeep : v.typeOf.keepsType = true)
    (hbase : v.indirect = some base) (hwhole : gobRebuild base = some base)
    (hword : v.typeOf.kind = .Ptr → base.directWord = none)
    (hser : serialize reg (some v) = (.ok bs, reg1)) :
    deserialize reg1 bs = .ok (some v) := by
  have hb := basicsBound_of_reachable reg hreach
  cases v with
  | bool b =>
    simp only [GoValue.indirect, Option.some.injEq] at hbase
    subst hbase
    exact roundtrip_predeclared reg reg1 _ bs hb rfl rfl hwhole hser
  | string s =>
    simp only [GoValue.indirect, Option.some.injEq] at hbase
    subst hbase
    exact roundtrip_predeclared reg reg1 _ bs hb rfl rfl hwhole hser
  | integer t n =>
    simp only [GoValue.indirect, Option.some.injEq] at hbase
    subst hbase
    exact roundtrip_predeclared reg reg1 _ bs hb rfl rfl hwhole hser
  | float t n =>
    simp only [GoValue.indirect, Option.some.injEq] at hbase
    subst hbase
    exact roundtrip_predeclared reg reg1 _ bs hb rfl rfl hwhole hser
  | complex t a b =>
    simp only [GoValue.indirect, Option.some.injEq] at hbase
    subst hbase
    exact roundtrip_predeclared reg reg1 _ bs hb rfl rfl hwhole hser
  | map k e es =>
    simp only [GoValue.indirect, Option.some.injEq] at hbase
    subst hbase
    exact roundtrip_registered reg reg1 _ bs (by simp [GoValue.typeOf, GoType.kind]) rfl hwhole
      (by simp [registerGobConcreteType, TypeOf, GoValue.typeOf, GoType.kind]) hser
  | slice e es =>
    simp only [GoValue.indirect, Option.some.injEq] at hbase
    subst hbase
    exact roundtrip_registered reg reg1 _ bs (by simp [GoValue.typeOf, GoType.kind]) rfl hwhole
      (by simp [registerGobConcreteType, TypeOf, GoValue.typeOf, GoType.kind]) hser
  | ptr x =>
    cases x with
    | struct p n fs =>
      simp only [GoValue.indirect, Option.some.injEq] at hbase
      subst hbase
      exact roundtrip_ptr_struct reg reg1 _ _ _ bs hwhole
        (hword (by simp [GoValue.typeOf, GoType.kind])) hser
    | cast t s =>
      simp only [GoValue.indirect, Option.some.injEq] at hbase
      subst hbase
      simp [gobRebuild] at hwhole
    | _ => simp [GoValue.typeOf, GoType.keepsType, GoType.isPredeclared] at hkeep
  | nilPtr e => simp [GoValue.indirect] at hbase
  | cast t s =>
    simp only [GoValue.indirect, Option.some.injEq] at hbase
    subst hbase
    simp [gobRebuild] at hwhole
  | array e es => simp [GoValue.typeOf, GoType.keepsType, GoType.isPredeclared] at hkeep
  | chan e i => simp [GoValue.typeOf, GoType.keepsType, GoType.isPredeclared] at hkeep
  | func s i => simp [GoValue.typeOf, GoType.keepsType, GoType.isPredeclared] at hkeep
  | struct p n fs => simp [GoValue.typeOf, GoType.keepsType, GoType.isPredeclared] at hkeep
  | unsafePointer a => simp [GoValue.typeOf, GoType.keepsType, GoType.isPredeclared] at hkeep

/-- C1, witness: a pointer to `Counter{N: 3}` goes through the codec and comes
back as a pointer to `Counter{N: 3}`. -/
theorem serialize_deserialize_roundtrip_witness :
    Reachable gobInit ∧ (GoValue.ptr counter).typeOf.keepsType = true ∧
    (GoValue.ptr counter).indirect = some counter ∧ gobRebuild counter = some counter ∧
    counter.directWord = none ∧
    serialize gobInit (some (.ptr counter))
      = (.ok (.message "main.Counter" counter), (serialize gobInit (some (.ptr counter))).2) ∧
    deserialize (serialize gobInit (some (.ptr counter))).2 (.message "main.Counter" counter)
      = .ok (some (.ptr counter)) :=
  ⟨.init, rfl, rfl, rfl, rfl, rfl,
    serialize_deserialize_roundtrip gobInit _ (.ptr counter) counter _ .init rfl rfl rfl
      (fun _ => rfl) rfl⟩

/-- The round trip of a value that gob does not carry whole: of
`U{N: 3, hidden: 7, Z: new(int)}` the decoder rebuilds `U{N: 3, hidden: 0, Z: nil}`,
the unexported field and the pointer to a zero being absent from the stream,
and that is what `deserialize` hands back a pointer to. -/
theorem roundtrip_loses_unsent_and_omitted_fields :
    gobRebuild partlySent
      = some (.struct "main" "U"
          [("N", .integer .int 3), ("hidden", .integer .int 0), ("Z", .nilPtr (.integer .int))]) ∧
    (match (serialize gobInit (some (.ptr partlySent))) with
      | (.ok bs, reg) => deserialize reg bs
      | _ => .ok none)
      = .ok (some (.ptr (.struct "main" "U"
          [("N", .integer .int 3), ("hidden", .integer .int 0),
            ("Z", .nilPtr (.integer .int))]))) :=
  ⟨rfl, rfl⟩

/-! ## The value codec: what is accepted -/

theorem Register_ne_error (reg : Registry) (value : Iface) (e : GoError) :
    Register reg value ≠ .error e := by
  cases value with
  | none => simp [Register]
  | some v =>
    simp only [Register, RegisterName]
    split
    · simp
    · split
      · simp
      · split <;> simp

theorem gobEncode_error_is_gob (reg : Registry) (v : GoValue) (e : GoError)
    (h : gobEncode reg v = .error e) : ∃ msg, e = .gob msg := by
  unfold gobEncode at h
  split at h
  · injection h with h
    exact ⟨_, h.symm⟩
  · split at h
    · injection h with h
      exact ⟨_, h.symm⟩
    · split at h
      · split at h
        · cases h
        · split at h
          · cases h
          · injection h with h
            exact ⟨_, h.symm⟩
      · injection h with h
        exact ⟨_, h.symm⟩

/-- C3, the code at the failing input: once a pointer to a pointer to a
`Counter` has been serialized, which registers the struct type under the name
of its pointer type, `serialize` of a plain `Counter` panics inside
`gob.Register`, before the struct check, and so returns no error; in gob's
initial registry the same value gets the error of the struct check. -/
theorem serialize_struct_panics_on_name_clash :
    serialize gobInit (some (.ptr (.ptr counter)))
      = (.ok (.message "*main.Counter" counter), registryAfterPtrPtr) ∧
    serialize registryAfterPtrPtr (some counter)
      = (.panics "gob: registering duplicate names for main.Counter", registryAfterPtrPtr) ∧
    (serialize gobInit (some counter)).1
      = .error (.errorf "serialize func only take pointer of a struct") :=
  ⟨rfl, rfl, rfl⟩

/-- The struct check on the path where the registration returns: a plain struct
value never yields bytes; whenever `gob.Register` accepts its type, `serialize`
returns the error of the struct check and `Set` returns that error, issuing no
engine call; and the struct check rejects no non-nil pointer to a struct. -/
theorem serialize_rejects_plain_struct (E : Engine σ) (w : Process σ) (id key : String)
    (v : GoValue) (reg1 : Registry) (hk : v.typeOf.kind = .Struct)
    (hreg : Register w.registry (some v) = .ok reg1) :
    serialize w.registry (some v)
      = (.error (.errorf "serialize func only take pointer of a struct"), reg1) ∧
    Set E w id key (some v)
      = (.error (.errorf "serialize func only take pointer of a struct"),
          { w with registry := reg1 }) ∧
    (∀ (reg : Registry) (x : GoValue) (bs : Blob), x.typeOf.kind = .Struct →
      (serialize reg (some x)).1 ≠ .ok bs) ∧
    (∀ (reg : Registry) (x : GoValue), x.typeOf.kind = .Struct →
      (serialize reg (some (.ptr x))).1
        ≠ .error (.errorf "serialize func only take pointer of a struct")) := by
  have hser : serialize w.registry (some v)
      = (.error (.errorf "serialize func only take pointer of a struct"), reg1) := by
    simp [serialize, registerGobConcreteType, TypeOf, hk, hreg, ValueKind]
  refine ⟨hser, ?_, ?_, ?_⟩
  · simp [Set, hser]
  · intro reg x bs hx h
    unfold serialize at h
    split at h
    · simp at h
    · simp at h
    · simp [TypeOf, hx] at h
  · intro reg x hx h
    unfold serialize at h
    simp only [registerGobConcreteType, TypeOf, Option.map, GoValue.typeOf, GoType.kind,
      Interface, GoValue.Elem] at h
    split at h
    · rename_i e he
      exact Register_ne_error _ _ _ he
    · simp at h
    · simp at h
      obtain ⟨msg, hmsg⟩ := gobEncode_error_is_gob _ _ _ h
      cases hmsg

/-- In gob's initial registry the plain `Counter{N: 3}` is rejected by the
struct check. -/
theorem serialize_rejects_plain_struct_witness :
    counter.typeOf.kind = .Struct ∧
    Register gobInit (some counter) = .ok (serialize gobInit (some counter)).2 ∧
    serialize gobInit (some counter)
      = (.error (.errorf "serialize func only take pointer of a struct"),
          (serialize gobInit (some counter)).2) :=
  ⟨rfl, rfl,
    (serialize_rejects_plain_struct memEngine (memProcess ⟨"./nodbstore", 0, Second⟩) "s1" "count"
      counter (serialize gobInit (some counter)).2 rfl rfl).1⟩


/-! ## The value codec: type inspection -/

/-- C9, the code at the failing inputs: on the nil interface `serialize` panics
when it takes the kind of the absent type, and on a nil pointer it panics when
it takes the pointee to register it; `Set` panics with it, before any call to
the engine. -/
theorem serialize_panics_on_nil (E : Engine σ) (w : Process σ) (id key : String)
    (elem : GoType) :
    serialize w.registry none
      = (.panics "runtime error: invalid memory address or nil pointer dereference",
          w.registry) ∧
    serialize w.registry (some (.nilPtr elem))
      = (.panics "reflect: call of reflect.Value.Interface on zero Value", w.registry) ∧
    Set E w id key none
      = (.panics "runtime error: invalid memory address or nil pointer dereference", w) ∧
    Set E w id key (some (.nilPtr elem))
      = (.panics "reflect: call of reflect.Value.Interface on zero Value", w) := by
  have h1 : serialize w.registry none
      = (.panics "runtime error: invalid memory address or nil pointer dereference",
          w.registry) := by
    simp [serialize, registerGobConcreteType, TypeOf]
  have h2 : serialize w.registry (some (.nilPtr elem))
      = (.panics "reflect: call of reflect.Value.Interface on zero Value", w.registry) := by
    simp [serialize, registerGobConcreteType, TypeOf, GoValue.typeOf, GoType.kind, Interface,
      GoValue.Elem]
  refine ⟨h1, h2, ?_, ?_⟩
  · simp [Set, h1]
  · simp [Set, h2]

/-- C6: on a non-nil interface value `registerGobConcreteType` returns an error
exactly when the kind is none of pointer, struct, map, slice and the primitive
kinds (string, boolean, `int` to `int64`, `uint` to `uint64`, the floats and the
complex numbers; `uintptr` and arrays are among the kinds refused); on a
primitive kind it returns with the registry as it was; on a struct,
map or slice it is the call `gob.Register(value)`; on a non-nil pointer it is
the call `gob.Register` on the pointee; and a `gob.Register` that returns has
bound the type of its argument to its name. -/
theorem registerGobConcreteType_classifies (reg : Registry) (v : GoValue) :
    ((∃ e, registerGobConcreteType reg (some v) = .error e) ↔ v.typeOf.kind ∉ handledKinds) ∧
    (v.typeOf.kind ∈ primitiveKinds → registerGobConcreteType reg (some v) = .ok reg) ∧
    (v.typeOf.kind ∈ [Kind.Struct, Kind.Map, Kind.Slice] →
      registerGobConcreteType reg (some v) = Register reg (some v)) ∧
    (∀ x, v = .ptr x → registerGobConcreteType reg (some v) = Register reg (some x)) ∧
    (∀ x reg1, Register reg (some x) = .ok reg1 →
      assoc (registerNameOf x.typeOf) reg1.nameToConcreteType = some x.typeOf ∧
      assoc x.typeOf.base reg1.concreteTypeToName = some (registerNameOf x.typeOf)) := by
  refine ⟨?_, ?_, ?_, ?_, ?_⟩
  · cases hk : v.typeOf.kind <;>
      simp [registerGobConcreteType, TypeOf, hk, handledKinds, primitiveKinds,
        Register_ne_error]
    intro e
    cases v.Elem <;> simp [Interface, Register_ne_error]
  · intro hmem
    cases hk : v.typeOf.kind <;>
      simp [hk, primitiveKinds] at hmem <;>
      simp [registerGobConcreteType, TypeOf, hk]
  · intro hmem
    cases hk : v.typeOf.kind <;>
      simp [hk] at hmem <;>
      simp [registerGobConcreteType, TypeOf, hk]
  · intro x hx
    subst hx
    simp [registerGobConcreteType, TypeOf, GoValue.typeOf, GoType.kind, Interface, GoValue.Elem]
  · intro x reg1 hx
    have h := RegisterName_ok reg reg1 _ _ hx
    exact ⟨h.1, h.2.1⟩

/-- C6, witness: a string registers nothing, and a pointer to `Counter{N: 3}`
registers the struct type `main.Counter`. -/
theorem registerGobConcreteType_classifies_witness :
    (GoValue.string "a").typeOf.kind ∈ primitiveKinds ∧
    registerGobConcreteType gobInit (some (.string "a")) = .ok gobInit ∧
    registerGobConcreteType gobInit (some (.ptr counter)) = Register gobInit (some counter) ∧
    assoc "main.Counter" (serialize gobInit (some (.ptr counter))).2.nameToConcreteType
      = some (.struct "main" "Counter" (.cons "N" (.integer .int) .nil)) :=
  ⟨by decide,
    (registerGobConcreteType_classifies gobInit (.string "a")).2.1 (by decide),
    (registerGobConcreteType_classifies gobInit (.ptr counter)).2.2.2.1 counter rfl,
    ((registerGobConcreteType_classifies gobInit (.ptr counter)).2.2.2.2 counter
      (serialize gobInit (some (.ptr counter))).2 rfl).1⟩

/-! ## The value codec: decoding -/

/-- C7, the code at the failing input: for `W{P: &five}`, a struct with a single
pointer field, the data word of the interface holding the decoded struct is the
field `P` itself, so `reflect.NewAt` makes a `*W` at the address of the `int`:
`deserialize` returns a pointer of type `*W` whose pointee is the storage of
`five` read as a `W`, not the decoded struct, and so does `Get` after `Set`. -/
theorem deserialize_pointer_shaped_struct_aliases_field :
    serialize gobInit (some (.ptr boxedInt))
      = (.ok (.message "main.W" boxedInt), (serialize gobInit (some (.ptr boxedInt))).2) ∧
    gobDecode (serialize gobInit (some (.ptr boxedInt))).2 (.message "main.W" boxedInt)
      = .ok (some boxedInt) ∧
    deserialize (serialize gobInit (some (.ptr boxedInt))).2 (.message "main.W" boxedInt)
      = .ok (some (.ptr (.cast boxedInt.typeOf (.integer .int 5)))) ∧
    (Get memEngine
        (Set memEngine (memProcess ⟨"./nodbstore", 0, Second⟩) "s1" "w"
          (some (.ptr boxedInt))).2
        "s1" "w").1 = some (.ptr (.cast boxedInt.typeOf (.integer .int 5))) ∧
    TypeOf (some (GoValue.ptr (.cast boxedInt.typeOf (.integer .int 5))))
      = some (.ptr boxedInt.typeOf) ∧
    (GoValue.ptr (.cast boxedInt.typeOf (.integer .int 5))).Elem ≠ some boxedInt := by
  refine ⟨rfl, rfl, rfl, rfl, rfl, ?_⟩
  simp [GoValue.Elem, boxedInt]

/-- The result of `deserialize` in general: gob has decoded some value `p`; if
`p` is a struct the result is the pointer `reflect.NewAt` makes of the data word
of the interface, which is a pointer to the struct when the struct is not
pointer-shaped; otherwise the result is `p` itself. -/
theorem deserialize_result (reg : Registry) (byt : Blob) (r : Iface)
    (h : deserialize reg byt = .ok r) :
    ∃ p, gobDecode reg byt = .ok p ∧
      (∀ v, p = some v → v.typeOf.kind = .Struct →
        r = some (NewAt v.typeOf (InterfaceData v)) ∧
        (v.directWord = none → r = some (.ptr v))) ∧
      (ValueKind p ≠ .Struct → r = p) := by
  unfold deserialize at h
  cases hd : gobDecode reg byt with
  | error e => simp [hd] at h
  | ok p =>
    refine ⟨p, rfl, ?_⟩
    rw [hd] at h
    cases p with
    | none =>
      simp at h
      subst h
      simp [ValueKind]
    | some v =>
      by_cases hk : ValueKind (some v) = .Struct
      · simp [hk] at h
        subst h
        refine ⟨?_, fun hne => absurd hk hne⟩
        intro v1 hv _
        simp only [Option.some.injEq] at hv
        subst hv
        refine ⟨rfl, fun hw => ?_⟩
        simp [InterfaceData, hw, NewAt]
      · simp [hk] at h
        subst h
        refine ⟨?_, fun _ => rfl⟩
        intro v1 hv hs
        simp only [Option.some.injEq] at hv
        subst hv
        exact absurd hs hk

/-! ## Options -/

/-- C8: on an empty list `preOptions` returns the path `./nodbstore`, database
index 0 and the default lifetime of the framework; on a non-empty list it looks
at the first element only, replaces an empty path and a zero lifetime by those
defaults, and returns every other field as the caller set it. -/
theorem preOptions_defaults (DefaultMaxAge : Duration) :
    preOptions DefaultMaxAge [] = ⟨"./nodbstore", 0, DefaultMaxAge⟩ ∧
    ∀ (o : Options) (rest : List Options),
      preOptions DefaultMaxAge (o :: rest) = preOptions DefaultMaxAge [o] ∧
      (preOptions DefaultMaxAge (o :: rest)).Path
        = (if o.Path = "" then "./nodbstore" else o.Path) ∧
      (preOptions DefaultMaxAge (o :: rest)).DbIndex = o.DbIndex ∧
      (preOptions DefaultMaxAge (o :: rest)).MaxAge
        = (if o.MaxAge = 0 then DefaultMaxAge else o.MaxAge) := by
  refine ⟨by simp [preOptions], ?_⟩
  intro o rest
  refine ⟨rfl, ?_, ?_, ?_⟩ <;>
    by_cases hp : o.Path = "" <;> by_cases hm : o.MaxAge = 0 <;> simp [preOptions, hp, hm]

/-! ## The session store -/

/-- C2, the code at the failing input: with a `MaxAge` of one second, `Set`
and `Get` hand the engine's `Expire` the number 1000000000, the count of
nanoseconds, where one second is the time to live 1; the engine in memory ends
with a time to live of 1000000000 seconds for the session. -/
theorem Set_Get_expire_in_nanoseconds :
    (Set memEngine (memProcess ⟨"./nodbstore", 0, Second⟩) "s1" "k" (some (.string "v"))).2.issued
      = [.HSet "s1" "k" (.message "string" (.string "v")), .Expire "s1" 1000000000] ∧
    (Get memEngine
        (Set memEngine (memProcess ⟨"./nodbstore", 0, Second⟩) "s1" "k" (some (.string "v"))).2
        "s1" "k").2.issued
      = [.HSet "s1" "k" (.message "string" (.string "v")), .Expire "s1" 1000000000,
          .Expire "s1" 1000000000] ∧
    (Set memEngine (memProcess ⟨"./nodbstore", 0, Second⟩) "s1" "k"
        (some (.string "v"))).2.s.db.ttl = [("s1", 1000000000)] ∧
    Second / Second = 1 := by
  refine ⟨rfl, rfl, rfl, by decide⟩

/-- C4: when `serialize` returns an error, `Set` returns that error, issues no
engine call and leaves the store as it was; when the field write returns an
error, `Set` returns that error, has issued the write and no expiration, and
leaves the store, the state of the engine included, as it was. -/
theorem Set_atomic_on_failure (E : Engine σ) (w : Process σ) (id key : String) (val : Iface) :
    (∀ err reg, serialize w.registry val = (.error err, reg) →
      (Set E w id key val).1 = .error err ∧
      (Set E w id key val).2.issued = w.issued ∧
      (Set E w id key val).2.s = w.s) ∧
    (∀ bs reg err, serialize w.registry val = (.ok bs, reg) →
      E.HSet w.s.db id key bs = .error err →
      (Set E w id key val).1 = .error err ∧
      (Set E w id key val).2.issued = w.issued ++ [.HSet id key bs] ∧
      (Set E w id key val).2.s = w.s) := by
  constructor
  · intro err reg h
    simp [Set, h]
  · intro bs reg err h hset
    simp [Set, h, Process.HSet, hset]

/-- C4, witness: a plain struct fails in `serialize`, and the engine in memory
refuses a write under the empty session id. -/
theorem Set_atomic_on_failure_witness :
    ((Set memEngine (memProcess ⟨"./nodbstore", 0, Second⟩) "s1" "k" (some counter)).1
        = .error (.errorf "serialize func only take pointer of a struct") ∧
      (Set memEngine (memProcess ⟨"./nodbstore", 0, Second⟩) "s1" "k" (some counter)).2.issued
        = (memProcess ⟨"./nodbstore", 0, Second⟩).issued ∧
      (Set memEngine (memProcess ⟨"./nodbstore", 0, Second⟩) "s1" "k" (some counter)).2.s
        = (memProcess ⟨"./nodbstore", 0, Second⟩).s) ∧
    ((Set memEngine (memProcess ⟨"./nodbstore", 0, Second⟩) "" "k" (some (.string "v"))).1
        = .error (.engine "invalid key size") ∧
      (Set memEngine (memProcess ⟨"./nodbstore", 0, Second⟩) "" "k" (some (.string "v"))).2.issued
        = (memProcess ⟨"./nodbstore", 0, Second⟩).issued
            ++ [.HSet "" "k" (.message "string" (.string "v"))] ∧
      (Set memEngine (memProcess ⟨"./nodbstore", 0, Second⟩) "" "k" (some (.string "v"))).2.s
        = (memProcess ⟨"./nodbstore", 0, Second⟩).s) :=
  ⟨(Set_atomic_on_failure memEngine (memProcess ⟨"./nodbstore", 0, Second⟩) "s1" "k"
      (some counter)).1 _ (serialize gobInit (some counter)).2 rfl,
    (Set_atomic_on_failure memEngine (memProcess ⟨"./nodbstore", 0, Second⟩) "" "k"
      (some (.string "v"))).2 _ gobInit _ rfl rfl⟩


theorem Process.Expire_registry (E : Engine σ) (w : Process σ) (id : String) (d : Int) :
    (Process.Expire E w id d).2.registry = w.registry := by
  unfold Process.Expire
  split <;> rfl

/-- C5: `Get` has no error result, and it returns the nil interface when the
read returns an error, be it not-found or any other, when the stored bytes are
empty, and when `deserialize` returns an error; in every other case it returns
the value `deserialize` produced for the stored bytes. -/
theorem Get_degrades_to_absent (E : Engine σ) (w : Process σ) (id key : String) :
    (∀ err, E.HGet w.s.db id key = .error err → (Get E w id key).1 = none) ∧
    (∀ val, E.HGet w.s.db id key = .ok val → val.isEmpty = true →
      (Get E w id key).1 = none) ∧
    (∀ val err, E.HGet w.s.db id key = .ok val → val.isEmpty = false →
      deserialize w.registry val = .error err → (Get E w id key).1 = none) ∧
    (∀ val value, E.HGet w.s.db id key = .ok val → val.isEmpty = false →
      deserialize w.registry val = .ok value → (Get E w id key).1 = value) := by
  refine ⟨?_, ?_, ?_, ?_⟩
  · intro err h
    by_cases he : err = .ErrNotFound <;> simp [Get, h, he]
  · intro val h hemp
    simp [Get, h, hemp]
  · intro val err h hemp hd
    simp [Get, h, hemp, Process.Expire_registry, hd]
  · intro val value h hemp hd
    simp [Get, h, hemp, Process.Expire_registry, hd]

/-- C5, witness: in the engine in memory a field never written reads as absent,
and after `Set` of a pointer to `Counter{N: 3}` the field reads as what
`deserialize` makes of the stored bytes, a pointer to `Counter{N: 3}`. -/
theorem Get_degrades_to_absent_witness :
    (Get memEngine (memProcess ⟨"./nodbstore", 0, Second⟩) "s1" "missing").1 = none ∧
    (Get memEngine
        (Set memEngine (memProcess ⟨"./nodbstore", 0, Second⟩) "s1" "count"
          (some (.ptr counter))).2
        "s1" "count").1 = some (.ptr counter) :=
  ⟨(Get_degrades_to_absent memEngine (memProcess ⟨"./nodbstore", 0, Second⟩) "s1"
      "missing").1 .ErrNotFound rfl,
    (Get_degrades_to_absent memEngine
      (Set memEngine (memProcess ⟨"./nodbstore", 0, Second⟩) "s1" "count"
        (some (.ptr counter))).2 "s1" "count").2.2.2
      (.message "main.Counter" counter) (some (.ptr counter)) rfl rfl rfl⟩

/-- C10: `SetIdMaxAge` does the same for any two durations; if `Exist(id)` holds
it issues one `Expire` of `id` with the `MaxAge` of the store, and otherwise it
issues nothing and leaves everything as it was; the `MaxAge` of the store stays
what it was. -/
theorem SetIdMaxAge_ignores_duration (E : Engine σ) (w : Process σ) (id : String)
    (d1 d2 : Duration) :
    SetIdMaxAge E w id d1 = SetIdMaxAge E w id d2 ∧
    (Exist E w id = true →
      SetIdMaxAge E w id d1 = (Process.Expire E w id w.s.MaxAge).2 ∧
      (SetIdMaxAge E w id d1).issued = w.issued ++ [.Expire id w.s.MaxAge]) ∧
    (Exist E w id = false → SetIdMaxAge E w id d1 = w) ∧
    (SetIdMaxAge E w id d1).s.MaxAge = w.s.MaxAge := by
  refine ⟨rfl, ?_, ?_, ?_⟩
  · intro h
    refine ⟨by simp [SetIdMaxAge, h], ?_⟩
    simp only [SetIdMaxAge, h, if_true, Process.Expire]
    split <;> rfl
  · intro h
    simp [SetIdMaxAge, h]
  · by_cases h : Exist E w id = true
    · simp only [SetIdMaxAge, h, if_true, Process.Expire]
      split <;> rfl
    · simp [SetIdMaxAge, h]

/-- C10, witness: on a session with one field, durations of one second and of
one hour both issue the same single `Expire` with the `MaxAge` of the store; on
a session without fields neither issues anything. -/
theorem SetIdMaxAge_ignores_duration_witness :
    Exist memEngine
      (Set memEngine (memProcess ⟨"./nodbstore", 0, 60 * Second⟩) "s1" "k"
        (some (.string "v"))).2 "s1" = true ∧
    (SetIdMaxAge memEngine
      (Set memEngine (memProcess ⟨"./nodbstore", 0, 60 * Second⟩) "s1" "k"
        (some (.string "v"))).2 "s1" Second).issued
      = (Set memEngine (memProcess ⟨"./nodbstore", 0, 60 * Second⟩) "s1" "k"
          (some (.string "v"))).2.issued ++ [.Expire "s1" (60 * Second)] ∧
    Exist memEngine (memProcess ⟨"./nodbstore", 0, 60 * Second⟩) "s1" = false ∧
    SetIdMaxAge memEngine (memProcess ⟨"./nodbstore", 0, 60 * Second⟩) "s1" (3600 * Second)
      = memProcess ⟨"./nodbstore", 0, 60 * Second⟩ :=
  ⟨rfl,
    ((SetIdMaxAge_ignores_duration memEngine
      (Set memEngine (memProcess ⟨"./nodbstore", 0, 60 * Second⟩) "s1" "k"
        (some (.string "v"))).2 "s1" Second (3600 * Second)).2.1 rfl).2,
    rfl,
    (SetIdMaxAge_ignores_duration memEngine (memProcess ⟨"./nodbstore", 0, 60 * Second⟩) "s1"
      (3600 * Second) Second).2.2.1 rfl⟩

end Nodbstore
